import Mathlib

/-!
Verification of the timeout-bounded event listening and sequence-validation
engine of a MIDI piano-practice trainer.

The Lean definitions below are a shallow embedding of the Python sources:
* `music_theory.py` — note tables, `midi_to_note_name`, `note_name_to_index`,
  `notes_match`, `generate_scale`;
* `midi_handler.py` — `MIDIHandler.listen_for_note`, a poll/sleep loop with an
  optional deadline;
* `practice_modes.py` — `SessionStats`, `_prompt_and_validate`,
  `_play_scale_sequence`, and the retry step of `scale_degree_practice`,
  and the scale pair built by `mode_practice`.

Time is modelled explicitly: every iteration of a poll loop is a `Tick`
carrying the clock value observed at that iteration together with the result
of `poll()`.  Wall-clock readings are rationals.  A loop that runs out of its
(finite) tick trace is reported as `running`: in the Python source the loop
would simply keep spinning, so `running` marks an execution that has not yet
returned.
-/

/-- `CHROMATIC_NOTES` from `music_theory.py` (sharp spellings). -/
def CHROMATIC_NOTES : List String :=
  ["C", "C#", "D", "D#", "E", "F"] ++ ["F#", "G", "G#", "A", "A#", "B"]

/-- `FLAT_NOTES` from `music_theory.py` (flat spellings). -/
def FLAT_NOTES : List String :=
  ["C", "Db", "D", "Eb", "E", "F", "Gb", "G", "Ab", "A", "Bb", "B"]

/-- `ENHARMONIC_MAP` from `music_theory.py`, as an association list in the
source order of the Python dict. -/
def ENHARMONIC_MAP : List (String × String) :=
  [("C#", "Db"), ("Db", "C#"),
   ("D#", "Eb"), ("Eb", "D#"),
   ("F#", "Gb"), ("Gb", "F#"),
   ("G#", "Ab"), ("Ab", "G#"),
   ("A#", "Bb"), ("Bb", "A#")]

/-- `MODES` from `music_theory.py`: interval patterns in semitones. -/
def MODES : List (String × List Nat) :=
  [("Ionian",     [0, 2, 4, 5, 7, 9, 11, 12]),
   ("Dorian",     [0, 2, 3, 5, 7, 9, 10, 12]),
   ("Phrygian",   [0, 1, 3, 5, 7, 8, 10, 12]),
   ("Lydian",     [0, 2, 4, 6, 7, 9, 11, 12]),
   ("Mixolydian", [0, 2, 4, 5, 7, 9, 10, 12]),
   ("Aeolian",    [0, 2, 3, 5, 7, 8, 10, 12]),
   ("Locrian",    [0, 1, 3, 5, 6, 8, 10, 12])]

/-- `midi_to_note_name` from `music_theory.py`: octave-reduced name of a MIDI
note number, read from the sharp table. -/
def midi_to_note_name (midi_num : Nat) : String :=
  CHROMATIC_NOTES.getD (midi_num % 12) ""

/-- `note_name_to_index` from `music_theory.py`: chromatic index of a note
name, trying the sharp table first and then the flat table, `none` if the
name is in neither (the Python function returns `None`). -/
def note_name_to_index (note_name : String) : Option Nat :=
  match CHROMATIC_NOTES.findIdx? (· = note_name) with
  | some i => some i
  | none => FLAT_NOTES.findIdx? (· = note_name)

/-- `notes_match` from `music_theory.py`: equality, or the enharmonic alias
of the first note equals the second. -/
def notes_match (note1 note2 : String) : Bool :=
  if note1 = note2 then true
  else
    match (ENHARMONIC_MAP.find? (fun p => p.1 = note1)).map (·.2) with
    | some alias_note => alias_note = note2
    | none => false

/-- `generate_scale` from `music_theory.py`.  `none` models the two
`ValueError` raises (unknown mode, invalid root).  The spelling table is
chosen by whether the root name contains the character `b`, as in the
source (`use_flats = 'b' in root_note`). -/
def generate_scale (root_note : String) (mode : String) : Option (List String) :=
  match (MODES.find? (fun p => p.1 = mode)).map (·.2) with
  | none => none
  | some intervals =>
    match note_name_to_index root_note with
    | none => none
    | some root_index =>
      let use_flats := root_note.data.contains 'b'
      some (intervals.map (fun interval =>
        let note_index := (root_index + interval) % 12
        if use_flats then FLAT_NOTES.getD note_index ""
        else CHROMATIC_NOTES.getD note_index ""))

/-- The ascending/descending scale pair built by `mode_practice`
(`practice_modes.py` lines 189–190): `scale_ascending = generate_scale(...)`,
`scale_descending = scale_ascending[::-1]`. -/
def mode_round (key : String) (mode : String) :
    Option (List String × List String) :=
  (generate_scale key mode).map (fun s => (s, s.reverse))

/-- `SessionStats` from `practice_modes.py`: the three counters. -/
structure SessionStats where
  correct : Nat
  incorrect : Nat
  total_attempts : Nat
deriving DecidableEq, Repr

/-- `SessionStats.__init__`: all counters start at zero. -/
def SessionStats.init : SessionStats := ⟨0, 0, 0⟩

/-- `SessionStats.record_correct`. -/
def record_correct (s : SessionStats) : SessionStats :=
  { s with correct := s.correct + 1, total_attempts := s.total_attempts + 1 }

/-- `SessionStats.record_incorrect`. -/
def record_incorrect (s : SessionStats) : SessionStats :=
  { s with incorrect := s.incorrect + 1, total_attempts := s.total_attempts + 1 }

/-- `SessionStats.get_accuracy`: `0.0` at zero attempts, otherwise
`correct / total_attempts * 100` (modelled over ℚ). -/
def get_accuracy (s : SessionStats) : ℚ :=
  if s.total_attempts = 0 then 0
  else ((s.correct : ℚ) / (s.total_attempts : ℚ)) * 100

/-- The two mutators of `SessionStats`; a session's history is a finite list
of these. -/
inductive StatsOp where
  | recCorrect
  | recIncorrect
deriving DecidableEq, Repr

/-- Run one mutator. -/
def applyStatsOp (s : SessionStats) : StatsOp → SessionStats
  | .recCorrect => record_correct s
  | .recIncorrect => record_incorrect s

/-- State of `SessionStats` after a finite interleaving of the two mutators,
starting from a freshly constructed object. -/
def applyStatsOps (ops : List StatsOp) : SessionStats :=
  ops.foldl applyStatsOp SessionStats.init

/-- A decoded MIDI message as inspected by `listen_for_note`
(`msg.type`, `msg.velocity`, `msg.note`). -/
structure Msg where
  mtype : String
  velocity : Nat
  note : Nat
deriving DecidableEq, Repr

/-- One iteration of a poll loop: the wall-clock value observed at that
iteration and the result of `self.input_port.poll()`. -/
def Tick : Type := ℚ × Option Msg

instance : DecidableEq Tick := by
  unfold Tick
  infer_instance

/-- A qualifying message: `msg.type == "note_on" and msg.velocity > 0`. -/
def qualMsg (m : Msg) : Bool :=
  m.mtype = "note_on" && decide (0 < m.velocity)

/-- A tick whose poll result is a qualifying message. -/
def qualTick (t : Tick) : Bool :=
  match t.2 with
  | some m => qualMsg m
  | none => false

/-- The note number carried by a tick (junk value `0` for an empty poll;
only used underneath a `qualTick` hypothesis). -/
def noteOf (t : Tick) : Nat :=
  match t.2 with
  | some m => m.note
  | none => 0

/-- Python truthiness of the `timeout` argument as used in
`start_time = time.time() if timeout else None` and
`if timeout and ... >= timeout`: `None` and `0` are falsy. -/
def truthyTimeout : Option ℚ → Bool
  | none => false
  | some d => decide (d ≠ 0)

/-- Result of a (partial) run of `listen_for_note`: the loop has not yet
returned (`running`, trace exhausted), returned `None` (`timedOut`), or
returned a note number. -/
inductive LRes where
  | running
  | timedOut
  | note (n : Nat)
deriving DecidableEq, Repr

/-- `MIDIHandler.listen_for_note` from `midi_handler.py`, run over a finite
trace of poll-loop iterations.  `start` is the value `time.time()` returned
at entry.  Per iteration: if `timeout` is truthy and the elapsed time has
reached it, return `None`; otherwise poll; on no message, sleep and loop; on
a `note_on` with positive velocity, return its note; on any other message,
loop.  The second component is the unconsumed remainder of the trace. -/
def listen_for_note (start : ℚ) (timeout : Option ℚ) :
    List Tick → LRes × List Tick
  | [] => (.running, [])
  | t :: ts =>
    if truthyTimeout timeout = true ∧ timeout.getD 0 ≤ t.1 - start then
      (.timedOut, ts)
    else
      match t.2 with
      | none => listen_for_note start timeout ts
      | some m =>
        if qualMsg m then (.note m.note, ts)
        else listen_for_note start timeout ts

/-- Result of one run of `_prompt_and_validate`: the judged outcome
(`some true` = correct, `some false` = incorrect, `none` = the trace ran out
while the loop was still listening), whether the timeout hint was shown, the
statistics object after the call, and the unconsumed remainder of the
trace. -/
structure PromptOut where
  outcome : Option Bool
  hinted : Bool
  stats : SessionStats
  rem : List Tick
deriving DecidableEq

/-- The validation tail of `_prompt_and_validate` (lines 140–152): convert
the received MIDI note to a name, compare with `notes_match`, and record the
outcome in the statistics unless `is_root` is set. -/
def judge_note (stats : SessionStats) (expected_note : String)
    (is_root : Bool) (hinted : Bool) (midi_note : Nat) (rem : List Tick) :
    PromptOut :=
  let played_note := midi_to_note_name midi_note
  if notes_match played_note expected_note then
    ⟨some true, hinted, if is_root then stats else record_correct stats, rem⟩
  else
    ⟨some false, hinted, if is_root then stats else record_incorrect stats, rem⟩

/-- `_prompt_and_validate` from `practice_modes.py`: listen with the given
timeout; on `None` show the hint and listen again with no timeout (the hint
listen starts a fresh clock; its start value is irrelevant because an absent
timeout is never compared against it); then judge the note.  `start` is the
wall-clock value at the first `listen_for_note` call. -/
def prompt_and_validate (timeout : Option ℚ) (start : ℚ)
    (stats : SessionStats) (expected_note : String) (is_root : Bool)
    (trace : List Tick) : PromptOut :=
  let r1 := listen_for_note start timeout trace
  match r1.1 with
  | .note n => judge_note stats expected_note is_root false n r1.2
  | .timedOut =>
    let r2 := listen_for_note 0 none r1.2
    match r2.1 with
    | .note n => judge_note stats expected_note is_root true n r2.2
    | _ => ⟨none, true, stats, r2.2⟩
  | .running => ⟨none, false, stats, r1.2⟩

/-- Result of one prompt of the scale-degree drill body. -/
structure DrillOut where
  stats : SessionStats
  rem : List Tick
  issued : List String
deriving DecidableEq

/-- One interval prompt of `scale_degree_practice` (lines 95–99): issue the
prompt; if the answer was wrong, issue the very same prompt once more and
move on whatever the second outcome is.  `issued` records the expected note
of every issued prompt (the prompt text is a fixed function of the expected
note and is presentation only).  `start1`/`start2` are the clock values at
the two possible calls. -/
def drill_prompt_step (timeout : Option ℚ) (start1 start2 : ℚ)
    (stats : SessionStats) (expected_note : String) (trace : List Tick) :
    DrillOut :=
  let r1 := prompt_and_validate timeout start1 stats expected_note false trace
  match r1.outcome with
  | some true => ⟨r1.stats, r1.rem, [expected_note]⟩
  | some false =>
    let r2 := prompt_and_validate timeout start2 r1.stats expected_note false r1.rem
    ⟨r2.stats, r2.rem, [expected_note, expected_note]⟩
  | none => ⟨r1.stats, r1.rem, [expected_note]⟩

/-- Result of a (partial) run of `_play_scale_sequence`. -/
inductive SRes where
  | success
  | failure
  | running
deriving DecidableEq, Repr

/-- The sequence-deadline test of `_play_scale_sequence` (lines 265–268):
performed only when `timeout is not None`, and fires when the elapsed time
has reached the timeout (`>=`). -/
def seqFire (timeout : Option ℚ) (elapsed : ℚ) : Bool :=
  match timeout with
  | none => false
  | some d => decide (d ≤ elapsed)

/-- `_play_scale_sequence` from `practice_modes.py`, run over a finite trace
of poll-loop iterations shared with the inner listener.  `i` is
`current_index`; `start` is the `start_time` read at entry (only consulted
when `timeout` is not `None`, as in the source).  Per iteration of the outer
`while`: if the whole-sequence deadline has elapsed, return `False`; listen
for the next note with the fixed per-event timeout of 3 seconds, the
listener's clock starting at the head tick's time; on a per-event timeout
keep waiting; on a note, advance on a match and return `False` on a
mismatch.  When `current_index` reaches the length of the expected scale the
loop exits returning `True`. -/
def play_scale_sequence (timeout : Option ℚ) (start : ℚ)
    (expected_scale : List String) (i : Nat) (trace : List Tick) :
    SRes × List Tick :=
  if i < expected_scale.length then
    match trace with
    | [] => (.running, [])
    | t :: ts =>
      if seqFire timeout (t.1 - start) then (.failure, t :: ts)
      else
        let res := listen_for_note t.1 (some 3) (t :: ts)
        match res.1 with
        | .running => (.running, res.2)
        | .timedOut => play_scale_sequence timeout start expected_scale i res.2
        | .note n =>
          if notes_match (midi_to_note_name n) (expected_scale.getD i "") then
            play_scale_sequence timeout start expected_scale (i + 1) res.2
          else (.failure, res.2)
  else (.success, trace)
termination_by trace.length
decreasing_by
  all_goals
    have hlen : ∀ (s : ℚ) (d : Option ℚ) (t : Tick) (ts : List Tick),
        (listen_for_note s d (t :: ts)).2.length ≤ ts.length := by
      intro s d t ts
      induction ts generalizing t with
      | nil =>
        rw [listen_for_note]
        split
        · simp
        · rcases h2 : t.2 with _ | m <;> simp [h2, listen_for_note]
          split <;> simp [listen_for_note]
      | cons u us ih =>
        rw [listen_for_note]
        split
        · simp
        · rcases h2 : t.2 with _ | m
          · simpa using Nat.le_trans (ih u) (Nat.le_succ _)
          · simp only []
            split
            · simp
            · simpa using Nat.le_trans (ih u) (Nat.le_succ _)
    simpa using Nat.lt_succ_of_le (hlen t.1 (some 3) t ts)

/-- Written from the spec's words (§4.3), for comparison with
`play_scale_sequence`: the order-strict sequence matcher.  An empty expected
list succeeds consuming nothing; a mismatching event makes it fail at once,
leaving the rest of the stream unconsumed; a matching event advances the
cursor; an exhausted stream with the cursor still inside means the run has
not finished. -/
def seqSpecT : List String → List Tick → SRes × List Tick
  | [], trace => (.success, trace)
  | _ :: _, [] => (.running, [])
  | e :: es, t :: ts =>
    if notes_match (midi_to_note_name (noteOf t)) e then seqSpecT es ts
    else (.failure, ts)

/-- Written from the spec's words: the expected identifiers are matched
one-for-one, in order, by the first events of the stream. -/
def seqMatches : List String → List Tick → Bool
  | [], _ => true
  | _ :: _, [] => false
  | e :: es, t :: ts =>
    notes_match (midi_to_note_name (noteOf t)) e && seqMatches es ts

/-- The deadline test of `listen_for_note` fires: the call returns `None`
consuming the observing tick. -/
theorem listen_fire (start : ℚ) (timeout : Option ℚ) (t : Tick)
    (ts : List Tick) (h1 : truthyTimeout timeout = true)
    (h2 : timeout.getD 0 ≤ t.1 - start) :
    listen_for_note start timeout (t :: ts) = (.timedOut, ts) := by
  rw [listen_for_note, if_pos ⟨h1, h2⟩]

/-- The deadline test does not fire and the head tick carries a qualifying
message: `listen_for_note` returns that note at once. -/
theorem listen_head_note (start : ℚ) (timeout : Option ℚ) (t : Tick)
    (ts : List Tick) (m : Msg)
    (hf : ¬(truthyTimeout timeout = true ∧ timeout.getD 0 ≤ t.1 - start))
    (h2 : t.2 = some m) (hq : qualMsg m = true) :
    listen_for_note start timeout (t :: ts) = (.note m.note, ts) := by
  rw [listen_for_note, if_neg hf, h2]
  simp [hq]

/-- The deadline test does not fire and the head tick is not qualifying:
`listen_for_note` skips it. -/
theorem listen_skip (start : ℚ) (timeout : Option ℚ) (t : Tick)
    (ts : List Tick)
    (hf : ¬(truthyTimeout timeout = true ∧ timeout.getD 0 ≤ t.1 - start))
    (hq : qualTick t = false) :
    listen_for_note start timeout (t :: ts) = listen_for_note start timeout ts := by
  rw [listen_for_note, if_neg hf]
  rcases h2 : t.2 with _ | m
  · rfl
  · have hqm : qualMsg m = false := by simpa [qualTick, h2] using hq
    simp [hqm]

/-- With no timeout, `listen_for_note` never reports a timeout: it keeps
listening until a qualifying event arrives or the trace runs out. -/
theorem listen_none_ne_timedOut (start : ℚ) (trace : List Tick) :
    (listen_for_note start none trace).1 ≠ .timedOut := by
  induction trace with
  | nil => simp [listen_for_note]
  | cons t ts ih =>
    rw [listen_for_note]
    have : ¬(truthyTimeout none = true ∧ (none : Option ℚ).getD 0 ≤ t.1 - start) := by
      simp [truthyTimeout]
    rw [if_neg this]
    rcases h2 : t.2 with _ | m
    · exact ih
    · by_cases hq : qualMsg m = true
      · simp [hq]
      · simp only [hq]
        simpa using ih

/-- With no timeout, `listen_for_note` skips a non-qualifying block and
returns the first qualifying event. -/
theorem listen_none_first_qual (start : ℚ) (pre : List Tick) (tq : Tick)
    (post : List Tick) (hpre : ∀ x ∈ pre, qualTick x = false)
    (hq : qualTick tq = true) :
    listen_for_note start none (pre ++ tq :: post) = (.note (noteOf tq), post) := by
  have hnofire : ∀ t : Tick,
      ¬(truthyTimeout (none : Option ℚ) = true ∧
        (none : Option ℚ).getD 0 ≤ t.1 - start) := by
    simp [truthyTimeout]
  induction pre with
  | nil =>
    rcases h2 : tq.2 with _ | m
    · simp [qualTick, h2] at hq
    · have : noteOf tq = m.note := by simp [noteOf, h2]
      rw [this]
      refine listen_head_note start none tq post m (hnofire tq) h2 ?_
      simpa [qualTick, h2] using hq
  | cons t ts ih =>
    have hskip := listen_skip start none t (ts ++ tq :: post) (hnofire t)
      (hpre t (by simp))
    simpa [hskip] using ih (fun x hx => hpre x (by simp [hx]))

/-- With a truthy timeout `d`, if every tick before the first tick whose
elapsed time reaches `d` is non-qualifying, the call returns `None` at that
tick. -/
theorem listen_timeout_block (start : ℚ) (d : ℚ) (hd : d ≠ 0)
    (pre : List Tick) (tick : Tick) (post : List Tick)
    (hpre : ∀ x ∈ pre, x.1 - start < d ∧ qualTick x = false)
    (htick : d ≤ tick.1 - start) :
    listen_for_note start (some d) (pre ++ tick :: post) = (.timedOut, post) := by
  induction pre with
  | nil =>
    exact listen_fire start (some d) tick post (by simp [truthyTimeout, hd]) htick
  | cons t ts ih =>
    have hlt := (hpre t (by simp)).1
    have hfire : ¬(truthyTimeout (some d) = true ∧
        (some d : Option ℚ).getD 0 ≤ t.1 - start) := by
      rintro ⟨-, hle⟩
      simp at hle
      linarith
    have hskip := listen_skip start (some d) t (ts ++ tick :: post)
      hfire (hpre t (by simp)).2
    simpa [hskip] using ih (fun x hx => hpre x (by simp [hx]))

/-- Unfolding `play_scale_sequence` when the cursor has reached the end of
the expected scale: the whole sequence matched. -/
theorem psq_done (timeout : Option ℚ) (start : ℚ)
    (expected_scale : List String) (i : Nat) (trace : List Tick)
    (h : ¬ i < expected_scale.length) :
    play_scale_sequence timeout start expected_scale i trace = (.success, trace) := by
  rw [play_scale_sequence.eq_def, if_neg h]

/-- Unfolding `play_scale_sequence` on an exhausted trace with the cursor
still inside the scale: the loop is still running. -/
theorem psq_nil (timeout : Option ℚ) (start : ℚ)
    (expected_scale : List String) (i : Nat)
    (h : i < expected_scale.length) :
    play_scale_sequence timeout start expected_scale i [] = (.running, []) := by
  rw [play_scale_sequence.eq_def, if_pos h]

/-- Unfolding `play_scale_sequence` when the sequence deadline has elapsed
at the top-of-loop check: abort with `False`, the head tick's poll result
unconsumed. -/
theorem psq_fire (timeout : Option ℚ) (start : ℚ)
    (expected_scale : List String) (i : Nat) (t : Tick) (ts : List Tick)
    (h : i < expected_scale.length)
    (hf : seqFire timeout (t.1 - start) = true) :
    play_scale_sequence timeout start expected_scale i (t :: ts) =
      (.failure, t :: ts) := by
  rw [play_scale_sequence.eq_def, if_pos h]
  simp only [hf, if_true]

/-- Unfolding `play_scale_sequence` when the deadline check passes and the
inner listener times out per-event: loop again on the remaining trace. -/
theorem psq_inner_timeout (timeout : Option ℚ) (start : ℚ)
    (expected_scale : List String) (i : Nat) (t : Tick) (ts rem : List Tick)
    (h : i < expected_scale.length)
    (hf : seqFire timeout (t.1 - start) = false)
    (hl : listen_for_note t.1 (some 3) (t :: ts) = (.timedOut, rem)) :
    play_scale_sequence timeout start expected_scale i (t :: ts) =
      play_scale_sequence timeout start expected_scale i rem := by
  rw [play_scale_sequence.eq_def, if_pos h]
  simp only [hf, hl, Bool.false_eq_true, if_false]

/-- Unfolding `play_scale_sequence` when the deadline check passes and the
inner listener runs out of trace. -/
theorem psq_inner_running (timeout : Option ℚ) (start : ℚ)
    (expected_scale : List String) (i : Nat) (t : Tick) (ts rem : List Tick)
    (h : i < expected_scale.length)
    (hf : seqFire timeout (t.1 - start) = false)
    (hl : listen_for_note t.1 (some 3) (t :: ts) = (.running, rem)) :
    play_scale_sequence timeout start expected_scale i (t :: ts) =
      (.running, rem) := by
  rw [play_scale_sequence.eq_def, if_pos h]
  simp only [hf, hl, Bool.false_eq_true, if_false]

/-- Unfolding `play_scale_sequence` when the deadline check passes and the
inner listener returns a note: advance the cursor on a match, abort with
`False` on a mismatch. -/
theorem psq_inner_note (timeout : Option ℚ) (start : ℚ)
    (expected_scale : List String) (i : Nat) (t : Tick) (ts rem : List Tick)
    (n : Nat) (h : i < expected_scale.length)
    (hf : seqFire timeout (t.1 - start) = false)
    (hl : listen_for_note t.1 (some 3) (t :: ts) = (.note n, rem)) :
    play_scale_sequence timeout start expected_scale i (t :: ts) =
      (if notes_match (midi_to_note_name n) (expected_scale.getD i "") then
        play_scale_sequence timeout start expected_scale (i + 1) rem
      else (.failure, rem)) := by
  rw [play_scale_sequence.eq_def, if_pos h]
  simp only [hf, hl, Bool.false_eq_true, if_false]

/-- The inner listener of `play_scale_sequence` never times out at the head
tick it just started at, and returns immediately on a qualifying head. -/
theorem listen_self_qual (t : Tick) (ts : List Tick) (hq : qualTick t = true) :
    listen_for_note t.1 (some 3) (t :: ts) = (.note (noteOf t), ts) := by
  rcases h2 : t.2 with _ | m
  · simp [qualTick, h2] at hq
  · have : noteOf t = m.note := by simp [noteOf, h2]
    rw [this]
    refine listen_head_note t.1 (some 3) t ts m ?_ h2 ?_
    · rintro ⟨-, hle⟩
      simp at hle
      linarith
    · simpa [qualTick, h2] using hq

/-- The order-strict matcher succeeds exactly when the expected identifiers
are matched one-for-one in order. -/
theorem seqSpecT_success_iff (es : List String) (trace : List Tick) :
    (seqSpecT es trace).1 = .success ↔ seqMatches es trace = true := by
  induction es generalizing trace with
  | nil => simp [seqSpecT, seqMatches]
  | cons e es ih =>
    cases trace with
    | nil => simp [seqSpecT, seqMatches]
    | cons t ts =>
      rw [seqSpecT, seqMatches]
      by_cases hm : notes_match (midi_to_note_name (noteOf t)) e = true
      · simp [hm, ih]
      · simp only [Bool.not_eq_true] at hm
        simp [hm]

/-- On a stream made entirely of qualifying events, `_play_scale_sequence`
with an unbounded sequence deadline computes exactly the order-strict
matcher, applied to the not-yet-matched part of the expected scale. -/
theorem psq_qual (start : ℚ) (expected_scale : List String) :
    ∀ (trace : List Tick) (i : Nat), (∀ t ∈ trace, qualTick t = true) →
    play_scale_sequence none start expected_scale i trace =
      seqSpecT (expected_scale.drop i) trace := by
  intro trace
  induction trace with
  | nil =>
    intro i _
    by_cases h : i < expected_scale.length
    · rw [psq_nil none start expected_scale i h]
      rcases hd : expected_scale.drop i with _ | ⟨e, es⟩
      · have := List.drop_eq_nil_iff.mp hd
        omega
      · rfl
    · rw [psq_done none start expected_scale i [] h]
      have hd : expected_scale.drop i = [] :=
        List.drop_eq_nil_of_le (by omega)
      rw [hd]
      rfl
  | cons t ts ih =>
    intro i hq
    by_cases h : i < expected_scale.length
    · have hf : seqFire none (t.1 - start) = false := rfl
      have hl := listen_self_qual t ts (hq t (by simp))
      rw [psq_inner_note none start expected_scale i t ts ts (noteOf t) h hf hl]
      have hdrop : expected_scale.drop i =
          expected_scale.getD i "" :: expected_scale.drop (i + 1) := by
        rw [List.drop_eq_getElem_cons h, List.getD_eq_getElem _ _ h]
      rw [hdrop, seqSpecT]
      by_cases hm :
          notes_match (midi_to_note_name (noteOf t)) (expected_scale.getD i "") = true
      · rw [if_pos hm, if_pos hm]
        exact ih (i + 1) (fun x hx => hq x (by simp [hx]))
      · simp only [Bool.not_eq_true] at hm
        have hm' : ¬(notes_match (midi_to_note_name (noteOf t))
            (expected_scale.getD i "") = true) := by
          rw [hm]
          simp
        rw [if_neg hm', if_neg hm']
    · rw [psq_done none start expected_scale i (t :: ts) h]
      have hd : expected_scale.drop i = [] :=
        List.drop_eq_nil_of_le (by omega)
      rw [hd]
      rfl

/-- C1: sequence validation is order-strict.  On any stream of qualifying
input events and with an unbounded sequence deadline (so that only the
matching logic is exercised), `_play_scale_sequence` computes exactly the
order-strict matcher `seqSpecT`: it returns true iff the events match the
expected identifiers one-for-one in order until the cursor reaches the end;
on the first mismatching event it returns false immediately, leaving the
rest of the stream unconsumed (visible in `seqSpecT`, which stops at the
mismatch); and an empty expected list returns true consuming nothing. -/
theorem C1_sequence_order_strict (start : ℚ) (expected_scale : List String)
    (trace : List Tick) (hq : ∀ t ∈ trace, qualTick t = true) :
    play_scale_sequence none start expected_scale 0 trace =
      seqSpecT expected_scale trace
    ∧ play_scale_sequence none start ([] : List String) 0 trace =
        (.success, trace)
    ∧ ((play_scale_sequence none start expected_scale 0 trace).1 = .success ↔
        seqMatches expected_scale trace = true) := by
  have h1 := psq_qual start expected_scale trace 0 hq
  rw [List.drop_zero] at h1
  refine ⟨h1, ?_, ?_⟩
  · exact psq_done none start [] 0 trace (by simp)
  · rw [h1]
    exact seqSpecT_success_iff expected_scale trace

/-- Witness for C1 at a concrete input: expected scale `["C", "E"]`, stream
playing C then E (both qualifying). -/
theorem C1_witness :
    (∀ t ∈ ([((0 : ℚ), some ⟨"note_on", 64, 60⟩),
             ((1 : ℚ), some ⟨"note_on", 64, 64⟩)] : List Tick),
      qualTick t = true)
    ∧ (play_scale_sequence none 0 ["C", "E"] 0
        [((0 : ℚ), some ⟨"note_on", 64, 60⟩),
         ((1 : ℚ), some ⟨"note_on", 64, 64⟩)] =
        seqSpecT ["C", "E"]
          [((0 : ℚ), some ⟨"note_on", 64, 60⟩),
           ((1 : ℚ), some ⟨"note_on", 64, 64⟩)]
      ∧ play_scale_sequence none 0 ([] : List String) 0
          [((0 : ℚ), some ⟨"note_on", 64, 60⟩),
           ((1 : ℚ), some ⟨"note_on", 64, 64⟩)] =
          (.success,
            [((0 : ℚ), some ⟨"note_on", 64, 60⟩),
             ((1 : ℚ), some ⟨"note_on", 64, 64⟩)])
      ∧ ((play_scale_sequence none 0 ["C", "E"] 0
            [((0 : ℚ), some ⟨"note_on", 64, 60⟩),
             ((1 : ℚ), some ⟨"note_on", 64, 64⟩)]).1 = .success ↔
          seqMatches ["C", "E"]
            [((0 : ℚ), some ⟨"note_on", 64, 60⟩),
             ((1 : ℚ), some ⟨"note_on", 64, 64⟩)] = true)) :=
  ⟨by decide, C1_sequence_order_strict 0 ["C", "E"] _ (by decide)⟩

/-- C2 (amended): the bounded sequence deadline of `_play_scale_sequence`
is enforced at the top-of-loop check, and that check dominates the per-event
deadline.  (i) Whenever the check at the head of an iteration observes an
elapsed time that has reached the deadline (with the expected scale not yet
exhausted), the validator aborts immediately returning false.  (ii) A
per-event listener timeout is never by itself treated as failure: the loop
merely re-enters (re-checking the overall deadline) and listens again.
(iii) A run can only return true if the deadline check at its first
iteration passed; however the deadline is re-checked only at the top of each
iteration, so the validator may still return true when the final matching
event arrives after the deadline has elapsed, during a listen begun before
the deadline (see the counterexample). -/
theorem C2_sequence_deadline_check :
    (∀ (d start : ℚ) (es : List String) (i : Nat) (t : Tick) (ts : List Tick),
      i < es.length → d ≤ t.1 - start →
      play_scale_sequence (some d) start es i (t :: ts) = (.failure, t :: ts))
    ∧ (∀ (d start : ℚ) (es : List String) (i : Nat) (t : Tick)
        (ts rem : List Tick),
      i < es.length → t.1 - start < d →
      listen_for_note t.1 (some 3) (t :: ts) = (.timedOut, rem) →
      play_scale_sequence (some d) start es i (t :: ts) =
        play_scale_sequence (some d) start es i rem)
    ∧ (∀ (d start : ℚ) (es : List String) (i : Nat) (trace : List Tick),
      i < es.length →
      (play_scale_sequence (some d) start es i trace).1 = .success →
      ∃ t ts, trace = t :: ts ∧ t.1 - start < d) := by
  refine ⟨?_, ?_, ?_⟩
  · intro d start es i t ts h hd
    exact psq_fire (some d) start es i t ts h (by simp [seqFire, hd])
  · intro d start es i t ts rem h hd hl
    refine psq_inner_timeout (some d) start es i t ts rem h ?_ hl
    simp only [seqFire, decide_eq_false_iff_not, not_le]
    exact hd
  · intro d start es i trace h hs
    cases trace with
    | nil => rw [psq_nil (some d) start es i h] at hs; exact absurd hs (by simp)
    | cons t ts =>
      refine ⟨t, ts, rfl, ?_⟩
      by_contra hge
      rw [not_lt] at hge
      rw [psq_fire (some d) start es i t ts h (by simp [seqFire, hge])] at hs
      exact absurd hs (by simp)

/-- Witness for C2 at concrete inputs: a deadline of 10 already elapsed at a
head tick observed at time 12 aborts at once; a per-event timeout (no event
for more than 3 seconds) merely re-enters the loop. -/
theorem C2_witness :
    ((0 : Nat) < (["C"] : List String).length ∧ (10 : ℚ) ≤ (12 : ℚ) - 0 ∧
      play_scale_sequence (some 10) 0 ["C"] 0 [((12 : ℚ), none)] =
        (.failure, [((12 : ℚ), none)]))
    ∧ ((2 : ℚ) - 0 < 10 ∧
        listen_for_note (2 : ℚ) (some 3) [((2 : ℚ), none), ((6 : ℚ), none)] =
          (.timedOut, []) ∧
        play_scale_sequence (some 10) 0 ["C"] 0 [((2 : ℚ), none), ((6 : ℚ), none)] =
          play_scale_sequence (some 10) 0 ["C"] 0 []) := by
  have hl : listen_for_note (2 : ℚ) (some 3) [((2 : ℚ), none), ((6 : ℚ), none)] =
      (.timedOut, []) := by
    norm_num [listen_for_note, truthyTimeout]
  refine ⟨⟨by decide, by norm_num, ?_⟩, ⟨by norm_num, hl, ?_⟩⟩
  · exact C2_sequence_deadline_check.1 10 0 ["C"] 0 ((12 : ℚ), none) []
      (by decide) (by norm_num)
  · exact C2_sequence_deadline_check.2.1 10 0 ["C"] 0 ((2 : ℚ), none)
      [((6 : ℚ), none)] [] (by decide) (by norm_num) hl

/-- C2 counterexample to the claim as stated: with sequence deadline 10 and
start time 0, the deadline check passes at the head tick (time 9), the inner
listener then obtains the final matching event at time 11 — after the
deadline has elapsed but within its own 3-second window — and the validator
returns true, even though the sequence deadline elapsed before the final
matching event was judged. -/
theorem C2_counterexample :
    play_scale_sequence (some 10) 0 ["C"] 0
      [((9 : ℚ), none), ((11 : ℚ), some ⟨"note_on", 64, 60⟩)] = (.success, [])
    ∧ (10 : ℚ) < 11 := by
  constructor
  · have hf : seqFire (some 10) ((9 : ℚ) - 0) = false := by
      norm_num [seqFire]
    have hl : listen_for_note (9 : ℚ) (some 3)
        [((9 : ℚ), none), ((11 : ℚ), some ⟨"note_on", 64, 60⟩)] =
        (.note 60, []) := by
      norm_num [listen_for_note, truthyTimeout, qualMsg]
    rw [psq_inner_note (some 10) 0 ["C"] 0 ((9 : ℚ), none)
      [((11 : ℚ), some ⟨"note_on", 64, 60⟩)] [] 60 (by decide) hf hl]
    rw [if_pos (by decide)]
    exact psq_done (some 10) 0 ["C"] 1 [] (by decide)
  · norm_num

/-- C3: evaluation of `listen_for_note` at the failing input `timeout = 0`.
Because the source guards the deadline with Python truthiness
(`if timeout:`), a zero timeout never fires: with no qualifying event the
call is still listening at elapsed time 5 (first conjunct) and even returns
an event polled at elapsed time 100 instead of having timed out at 0
(second conjunct).  For contrast, the claim's remaining content holds: a
positive bounded deadline fires once elapsed time reaches it (third
conjunct), and an unbounded listen never returns `None` (fourth conjunct,
here at a concrete trace; `listen_none_ne_timedOut` proves it in
general). -/
theorem C3_zero_timeout_never_fires :
    listen_for_note 0 (some 0) [((5 : ℚ), none)] = (.running, [])
    ∧ listen_for_note 0 (some 0)
        [((5 : ℚ), none), ((100 : ℚ), some ⟨"note_on", 64, 60⟩)] =
        (.note 60, [])
    ∧ listen_for_note 0 (some 5) [((2 : ℚ), none), ((6 : ℚ), none)] =
        (.timedOut, [])
    ∧ (listen_for_note 0 none [((5 : ℚ), none)]).1 ≠ .timedOut := by
  refine ⟨?_, ?_, ?_, ?_⟩
  · norm_num [listen_for_note, truthyTimeout]
  · norm_num [listen_for_note, truthyTimeout, qualMsg]
  · norm_num [listen_for_note, truthyTimeout]
  · have h5 : listen_for_note 0 none [((5 : ℚ), none)] = (.running, []) := by
      norm_num [listen_for_note, truthyTimeout]
    rw [h5]
    simp

/-- C4 counterexample to the claim as stated: with the bounded deadline
`D = 0` and no qualifying event at all, `_prompt_and_validate` never reveals
the hint — the first listen inherits the listener's Python-truthiness guard,
so a zero deadline never times out and the hint path is unreachable
(`hinted = false`, no outcome). -/
theorem C4_counterexample :
    prompt_and_validate (some 0) 0 SessionStats.init "C" false
      [((5 : ℚ), none)] = ⟨none, false, SessionStats.init, []⟩ := by
  have hl : listen_for_note 0 (some 0) [((5 : ℚ), none)] = (.running, []) := by
    norm_num [listen_for_note, truthyTimeout]
  simp [prompt_and_validate, hl]

/-- C4 (amended to positive deadlines): for every expected identifier and
bounded deadline `D > 0`, if no qualifying event arrives within `D` (a
non-qualifying prefix, then a tick observed at elapsed time ≥ `D`), then
`_prompt_and_validate` reveals the expected answer as a hint and re-invokes
the listener with an unbounded deadline; the unbounded wait cannot time out
(last conjunct); and the first qualifying event obtained after the hint is
judged by the same `notes_match` equivalence rule — in particular a correct
event after the hint yields a correct outcome. -/
theorem C4_hint_path (D start : ℚ) (hD : 0 < D) (stats : SessionStats)
    (expected_note : String) (is_root : Bool) (pre : List Tick) (tick : Tick)
    (pre2 : List Tick) (tq : Tick) (post : List Tick)
    (hpre : ∀ x ∈ pre, x.1 - start < D ∧ qualTick x = false)
    (htick : D ≤ tick.1 - start)
    (hpre2 : ∀ x ∈ pre2, qualTick x = false)
    (hq : qualTick tq = true) :
    (prompt_and_validate (some D) start stats expected_note is_root
        (pre ++ tick :: (pre2 ++ tq :: post))).hinted = true
    ∧ (prompt_and_validate (some D) start stats expected_note is_root
        (pre ++ tick :: (pre2 ++ tq :: post))).rem = post
    ∧ (prompt_and_validate (some D) start stats expected_note is_root
        (pre ++ tick :: (pre2 ++ tq :: post))).outcome =
        some (notes_match (midi_to_note_name (noteOf tq)) expected_note)
    ∧ (∀ (s2 : ℚ) (tr2 : List Tick),
        (listen_for_note s2 none tr2).1 ≠ .timedOut) := by
  have h1 := listen_timeout_block start D (ne_of_gt hD) pre tick
    (pre2 ++ tq :: post) hpre htick
  have h2 := listen_none_first_qual 0 pre2 tq post hpre2 hq
  refine ⟨?_, ?_, ?_, fun s2 tr2 => listen_none_ne_timedOut s2 tr2⟩ <;>
    by_cases hm : notes_match (midi_to_note_name (noteOf tq)) expected_note =
        true <;>
    simp [prompt_and_validate, h1, h2, judge_note, hm]

/-- Witness for C4 at a concrete input: deadline 1, nothing until a tick at
time 2 (timeout, hint), then a qualifying E (MIDI 64) matching the expected
note E. -/
theorem C4_witness :
    ((0 : ℚ) < 1 ∧ (1 : ℚ) ≤ (2 : ℚ) - 0)
    ∧ (prompt_and_validate (some 1) 0 SessionStats.init "E" false
        [((2 : ℚ), none), ((3 : ℚ), some ⟨"note_on", 64, 64⟩)]).hinted = true
    ∧ (prompt_and_validate (some 1) 0 SessionStats.init "E" false
        [((2 : ℚ), none), ((3 : ℚ), some ⟨"note_on", 64, 64⟩)]).outcome =
        some (notes_match (midi_to_note_name
          (noteOf (((3 : ℚ), some ⟨"note_on", 64, 64⟩) : Tick))) "E") := by
  have h := C4_hint_path 1 0 (by norm_num) SessionStats.init "E" false
    [] (((2 : ℚ), none) : Tick) [] (((3 : ℚ), some ⟨"note_on", 64, 64⟩) : Tick)
    [] (by simp) (by norm_num) (by simp) (by decide)
  exact ⟨⟨by norm_num, by norm_num⟩, h.1, h.2.2.1⟩

/-- C5: setup/root rounds never mutate `SessionStats`.  With `is_root`
true, `_prompt_and_validate` returns the statistics object unchanged for
every deadline and input trace, whether the played note matches or not
(first conjunct); and only non-setup rounds record an outcome: with
`is_root` false, a judged round updates the statistics with exactly the
corresponding recorder (second conjunct). -/
theorem C5_setup_rounds_frame :
    (∀ (timeout : Option ℚ) (start : ℚ) (stats : SessionStats)
        (expected_note : String) (trace : List Tick),
      (prompt_and_validate timeout start stats expected_note true trace).stats =
        stats)
    ∧ (∀ (timeout : Option ℚ) (start : ℚ) (stats : SessionStats)
        (expected_note : String) (trace : List Tick) (b : Bool),
      (prompt_and_validate timeout start stats expected_note false
        trace).outcome = some b →
      (prompt_and_validate timeout start stats expected_note false
        trace).stats =
        (if b then record_correct stats else record_incorrect stats)) := by
  constructor
  · intro timeout start stats e tr
    rw [prompt_and_validate]
    rcases h1 : listen_for_note start timeout tr with ⟨r1, rem1⟩
    simp only [h1]
    cases r1 with
    | running => rfl
    | note n =>
      simp only [judge_note]
      split <;> rfl
    | timedOut =>
      rcases h2 : listen_for_note 0 none rem1 with ⟨r2, rem2⟩
      simp only [h2]
      cases r2 with
      | running => rfl
      | timedOut => rfl
      | note n =>
        simp only [judge_note]
        split <;> rfl
  · intro timeout start stats e tr b
    rw [prompt_and_validate]
    rcases h1 : listen_for_note start timeout tr with ⟨r1, rem1⟩
    simp only [h1]
    cases r1 with
    | running => intro h; exact absurd h (by simp)
    | note n =>
      simp only [judge_note]
      split <;> intro h
      · obtain rfl : b = true := by simpa using h.symm
        rfl
      · obtain rfl : b = false := by simpa using h.symm
        rfl
    | timedOut =>
      rcases h2 : listen_for_note 0 none rem1 with ⟨r2, rem2⟩
      simp only [h2]
      cases r2 with
      | running => intro h; exact absurd h (by simp)
      | timedOut => intro h; exact absurd h (by simp)
      | note n =>
        simp only [judge_note]
        split <;> intro h
        · obtain rfl : b = true := by simpa using h.symm
          rfl
        · obtain rfl : b = false := by simpa using h.symm
          rfl

/-- Witness for C5 at concrete inputs: a root round with a correct C leaves
the fresh statistics unchanged; the same round without `is_root` records one
correct outcome. -/
theorem C5_witness :
    (prompt_and_validate none 0 SessionStats.init "C" true
        [((0 : ℚ), some ⟨"note_on", 64, 60⟩)]).stats = SessionStats.init
    ∧ ((prompt_and_validate none 0 SessionStats.init "C" false
          [((0 : ℚ), some ⟨"note_on", 64, 60⟩)]).outcome = some true
        ∧ (prompt_and_validate none 0 SessionStats.init "C" false
            [((0 : ℚ), some ⟨"note_on", 64, 60⟩)]).stats =
          (if true then record_correct SessionStats.init
            else record_incorrect SessionStats.init)) := by
  have hl : listen_for_note 0 none [((0 : ℚ), some ⟨"note_on", 64, 60⟩)] =
      (.note 60, []) := by
    norm_num [listen_for_note, truthyTimeout, qualMsg]
  have hm : notes_match (midi_to_note_name 60) "C" = true := by decide
  have houtcome : (prompt_and_validate none 0 SessionStats.init "C" false
      [((0 : ℚ), some ⟨"note_on", 64, 60⟩)]).outcome = some true := by
    simp [prompt_and_validate, hl, judge_note, hm]
  exact ⟨C5_setup_rounds_frame.1 none 0 SessionStats.init "C"
      [((0 : ℚ), some ⟨"note_on", 64, 60⟩)],
    houtcome,
    C5_setup_rounds_frame.2 none 0 SessionStats.init "C"
      [((0 : ℚ), some ⟨"note_on", 64, 60⟩)] true houtcome⟩

/-- C6: the scale-degree drill retries exactly once.  If the first attempt
at a prompt is judged correct, the drill issues that prompt once and moves
on with the first attempt's state; if it is judged incorrect, the drill
issues the very same prompt exactly once more and moves on with the second
attempt's state whatever its outcome — the returned `issued` list is
`[expected, expected]` and nothing further is attempted. -/
theorem C6_retry_exactly_once (timeout : Option ℚ) (start1 start2 : ℚ)
    (stats : SessionStats) (expected_note : String) (trace : List Tick) :
    ((prompt_and_validate timeout start1 stats expected_note false
        trace).outcome = some true →
      drill_prompt_step timeout start1 start2 stats expected_note trace =
        ⟨(prompt_and_validate timeout start1 stats expected_note false
            trace).stats,
         (prompt_and_validate timeout start1 stats expected_note false
            trace).rem,
         [expected_note]⟩)
    ∧ ((prompt_and_validate timeout start1 stats expected_note false
        trace).outcome = some false →
      drill_prompt_step timeout start1 start2 stats expected_note trace =
        ⟨(prompt_and_validate timeout start2
            (prompt_and_validate timeout start1 stats expected_note false
              trace).stats
            expected_note false
            (prompt_and_validate timeout start1 stats expected_note false
              trace).rem).stats,
         (prompt_and_validate timeout start2
            (prompt_and_validate timeout start1 stats expected_note false
              trace).stats
            expected_note false
            (prompt_and_validate timeout start1 stats expected_note false
              trace).rem).rem,
         [expected_note, expected_note]⟩) := by
  constructor <;> intro h <;> simp [drill_prompt_step, h]

/-- Witness for C6 at concrete inputs: a correct first C is not re-issued; a
wrong first note (D against expected C) makes the prompt re-issued exactly
once. -/
theorem C6_witness :
    ((prompt_and_validate none 0 SessionStats.init "C" false
        [((0 : ℚ), some ⟨"note_on", 64, 60⟩)]).outcome = some true
      ∧ drill_prompt_step none 0 0 SessionStats.init "C"
          [((0 : ℚ), some ⟨"note_on", 64, 60⟩)] =
        ⟨(prompt_and_validate none 0 SessionStats.init "C" false
            [((0 : ℚ), some ⟨"note_on", 64, 60⟩)]).stats,
         (prompt_and_validate none 0 SessionStats.init "C" false
            [((0 : ℚ), some ⟨"note_on", 64, 60⟩)]).rem,
         ["C"]⟩)
    ∧ ((prompt_and_validate none 0 SessionStats.init "C" false
        [((0 : ℚ), some ⟨"note_on", 64, 62⟩)]).outcome = some false
      ∧ (drill_prompt_step none 0 0 SessionStats.init "C"
          [((0 : ℚ), some ⟨"note_on", 64, 62⟩)]).issued = ["C", "C"]) := by
  have hl1 : listen_for_note 0 none [((0 : ℚ), some ⟨"note_on", 64, 60⟩)] =
      (.note 60, []) := by
    norm_num [listen_for_note, truthyTimeout, qualMsg]
  have hl2 : listen_for_note 0 none [((0 : ℚ), some ⟨"note_on", 64, 62⟩)] =
      (.note 62, []) := by
    norm_num [listen_for_note, truthyTimeout, qualMsg]
  have hm1 : notes_match (midi_to_note_name 60) "C" = true := by decide
  have hm2 : notes_match (midi_to_note_name 62) "C" = false := by decide
  have h1 : (prompt_and_validate none 0 SessionStats.init "C" false
      [((0 : ℚ), some ⟨"note_on", 64, 60⟩)]).outcome = some true := by
    simp [prompt_and_validate, hl1, judge_note, hm1]
  have h2 : (prompt_and_validate none 0 SessionStats.init "C" false
      [((0 : ℚ), some ⟨"note_on", 64, 62⟩)]).outcome = some false := by
    simp [prompt_and_validate, hl2, judge_note, hm2]
  refine ⟨⟨h1, (C6_retry_exactly_once none 0 0 SessionStats.init "C"
      [((0 : ℚ), some ⟨"note_on", 64, 60⟩)]).1 h1⟩, h2, ?_⟩
  rw [(C6_retry_exactly_once none 0 0 SessionStats.init "C"
      [((0 : ℚ), some ⟨"note_on", 64, 62⟩)]).2 h2]

/-- C7: the note-equivalence rule is reflexive, and symmetric on the
documented enharmonic pairs: `notes_match a a` holds for every identifier,
and for every pair of the enharmonic map both directions hold, so the two
sides agree on these pairs. -/
theorem C7_notes_match_refl_symm :
    (∀ a : String, notes_match a a = true)
    ∧ ∀ p ∈ ENHARMONIC_MAP,
        notes_match p.1 p.2 = true ∧ notes_match p.2 p.1 = true :=
  ⟨fun a => by simp [notes_match], by decide⟩

/-- Witness for C7 at concrete inputs: reflexivity at G#, symmetry at the
documented pair (C#, Db). -/
theorem C7_witness :
    notes_match "G#" "G#" = true
    ∧ (("C#", "Db") ∈ ENHARMONIC_MAP
      ∧ notes_match "C#" "Db" = true ∧ notes_match "Db" "C#" = true) := by
  have hmem : (("C#", "Db") : String × String) ∈ ENHARMONIC_MAP := by decide
  have hsym := C7_notes_match_refl_symm.2 ("C#", "Db") hmem
  exact ⟨C7_notes_match_refl_symm.1 "G#", hmem, hsym.1, hsym.2⟩

/-- Any reachable `SessionStats` state keeps its counters balanced: the
invariant is preserved by both mutators from any state that satisfies it. -/
theorem applyStatsOps_fold_inv (ops : List StatsOp) :
    ∀ s : SessionStats, s.correct + s.incorrect = s.total_attempts →
    (ops.foldl applyStatsOp s).correct + (ops.foldl applyStatsOp s).incorrect =
      (ops.foldl applyStatsOp s).total_attempts := by
  induction ops with
  | nil => intro s hs; simpa using hs
  | cons op ops ih =>
    intro s hs
    rw [List.foldl_cons]
    refine ih (applyStatsOp s op) ?_
    cases op <;>
      simp [applyStatsOp, record_correct, record_incorrect] <;> omega

/-- C8: starting from a freshly constructed `SessionStats` (all counters
zero), after every finite interleaving of `record_correct` and
`record_incorrect` the equation `correct + incorrect = total_attempts`
holds.  These two recorders are the only operations of the model that
change the counters (`get_accuracy` is a pure query). -/
theorem C8_stats_invariant (ops : List StatsOp) :
    (applyStatsOps ops).correct + (applyStatsOps ops).incorrect =
      (applyStatsOps ops).total_attempts :=
  applyStatsOps_fold_inv ops SessionStats.init rfl

/-- C9: `get_accuracy` returns exactly 0 when no attempts have been
recorded, never dividing by zero; and on every reachable statistics state
with at least one attempt it equals the ratio `correct / (correct +
incorrect)` expressed as a percentage. -/
theorem C9_accuracy :
    (∀ s : SessionStats, s.total_attempts = 0 → get_accuracy s = 0)
    ∧ (∀ ops : List StatsOp, (applyStatsOps ops).total_attempts ≠ 0 →
        get_accuracy (applyStatsOps ops) =
          ((applyStatsOps ops).correct : ℚ) /
            (((applyStatsOps ops).correct : ℚ) +
              ((applyStatsOps ops).incorrect : ℚ)) * 100) := by
  constructor
  · intro s hs
    simp [get_accuracy, hs]
  · intro ops h0
    have hinv : (applyStatsOps ops).correct + (applyStatsOps ops).incorrect =
        (applyStatsOps ops).total_attempts :=
      applyStatsOps_fold_inv ops SessionStats.init rfl
    rw [get_accuracy, if_neg h0, ← hinv]
    push_cast
    ring

/-- Witness for C9 at concrete inputs: the fresh statistics object reports
accuracy 0; after one recorded correct outcome the accuracy is the
percentage ratio. -/
theorem C9_witness :
    (SessionStats.init.total_attempts = 0 ∧ get_accuracy SessionStats.init = 0)
    ∧ ((applyStatsOps [.recCorrect]).total_attempts ≠ 0
      ∧ get_accuracy (applyStatsOps [.recCorrect]) =
          ((applyStatsOps [.recCorrect]).correct : ℚ) /
            (((applyStatsOps [.recCorrect]).correct : ℚ) +
              ((applyStatsOps [.recCorrect]).incorrect : ℚ)) * 100) :=
  ⟨⟨rfl, C9_accuracy.1 SessionStats.init rfl⟩,
   ⟨by decide, C9_accuracy.2 [.recCorrect] (by decide)⟩⟩

/-- C10: for every root note of the sharp or flat spelling tables and every
mode of `MODES`, `generate_scale` succeeds with a list of exactly 8 note
names whose first and last elements denote the same chromatic position as
the root; consequently `mode_practice` always hands the sequence validator
a non-empty 8-element ascending scale together with a descending scale that
is exactly its reverse. -/
theorem C10_generate_scale_shape (root mode : String)
    (hroot : root ∈ CHROMATIC_NOTES ∨ root ∈ FLAT_NOTES)
    (hmode : mode ∈ MODES.map Prod.fst) :
    (generate_scale root mode).isSome = true
    ∧ ((generate_scale root mode).getD []).length = 8
    ∧ ((generate_scale root mode).getD []).head?.bind note_name_to_index =
        note_name_to_index root
    ∧ ((generate_scale root mode).getD []).getLast?.bind note_name_to_index =
        note_name_to_index root
    ∧ mode_round root mode =
        some ((generate_scale root mode).getD [],
          ((generate_scale root mode).getD []).reverse)
    ∧ (generate_scale root mode).getD [] ≠ [] := by
  have hroot2 : root ∈ CHROMATIC_NOTES ++ FLAT_NOTES := by
    rw [List.mem_append]
    exact hroot
  have H : ∀ r ∈ CHROMATIC_NOTES ++ FLAT_NOTES, ∀ m ∈ MODES.map Prod.fst,
      (generate_scale r m).isSome = true
      ∧ ((generate_scale r m).getD []).length = 8
      ∧ ((generate_scale r m).getD []).head?.bind note_name_to_index =
          note_name_to_index r
      ∧ ((generate_scale r m).getD []).getLast?.bind note_name_to_index =
          note_name_to_index r
      ∧ mode_round r m =
          some ((generate_scale r m).getD [],
            ((generate_scale r m).getD []).reverse)
      ∧ (generate_scale r m).getD [] ≠ [] := by decide
  exact H root hroot2 mode hmode

/-- Witness for C10 at a concrete input: C Ionian. -/
theorem C10_witness :
    (("C" ∈ CHROMATIC_NOTES ∨ "C" ∈ FLAT_NOTES)
      ∧ "Ionian" ∈ MODES.map Prod.fst)
    ∧ ((generate_scale "C" "Ionian").isSome = true
      ∧ ((generate_scale "C" "Ionian").getD []).length = 8
      ∧ ((generate_scale "C" "Ionian").getD []).head?.bind note_name_to_index =
          note_name_to_index "C"
      ∧ ((generate_scale "C" "Ionian").getD []).getLast?.bind
          note_name_to_index = note_name_to_index "C"
      ∧ mode_round "C" "Ionian" =
          some ((generate_scale "C" "Ionian").getD [],
            ((generate_scale "C" "Ionian").getD []).reverse)
      ∧ (generate_scale "C" "Ionian").getD [] ≠ []) :=
  ⟨⟨Or.inl (by decide), by decide⟩,
   C10_generate_scale_shape "C" "Ionian" (Or.inl (by decide)) (by decide)⟩

-- Concrete sanity checks of the embedding.
example : midi_to_note_name 60 = "C" := rfl
example : notes_match "C#" "Db" = true := rfl
example : notes_match "C" "D" = false := rfl
example : generate_scale "C" "Ionian" =
    some ["C", "D", "E", "F", "G", "A", "B", "C"] := by decide
example : listen_for_note 0 (some 0) [(5, none)] = (.running, []) := by
  norm_num [listen_for_note, truthyTimeout]
example :
    listen_for_note 0 (some 5) [(2, none), (6, none)] = (.timedOut, []) := by
  norm_num [listen_for_note, truthyTimeout]
